import Mathlib

/-
Verification development for the trojan-rs TUN-to-TLS flow engine.

Shallow embedding of the parts of the code that the checked properties are
about:
  * the bypass profiler (src/proxy/net_profiler.rs),
  * the UDP flow worker and flow table (src/wintun/udp1.rs),
  * the mobile lifecycle bridge (src/mobile/src-tauri/src/platform/android.rs).

Machine integers are modelled as Nat (with explicit `% 2^w` where the Rust
release-mode arithmetic wraps), byte buffers as `List Nat`, `Instant` as an
absolute number of seconds, channels as emitted-message lists, and a Rust
panic as the `none` case of an `Option` result.
-/

set_option autoImplicit false

namespace TrojanRs

universe u v

/-! ## Association-list helpers (model of `HashMap` with an explicit
iteration order) -/

/-- Lookup in an association list (model of `HashMap::get`). -/
def alookup {κ : Type u} {α : Type v} [DecidableEq κ] : List (κ × α) → κ → Option α
  | [], _ => none
  | (k, v) :: t, k' => if k = k' then some v else alookup t k'

/-- Update the value at a key in place when present; leave the list unchanged
otherwise (model of `HashMap::get_mut` followed by a write). -/
def mapRow {κ : Type u} {α : Type v} [DecidableEq κ] : List (κ × α) → κ → (α → α) → List (κ × α)
  | [], _, _ => []
  | (k, v) :: t, k', f => if k = k' then (k, f v) :: t else (k, v) :: mapRow t k' f

/-- Update the value at a key in place when present; append `(k, f d)`
otherwise (model of `HashMap::entry(k).or_default()` followed by a write). -/
def updRow {κ : Type u} {α : Type v} [DecidableEq κ] (l : List (κ × α)) (k : κ) (f : α → α)
    (d : α) : List (κ × α) :=
  match l with
  | [] => [(k, f d)]
  | (k₁, v) :: t => if k₁ = k then (k₁, f v) :: t else (k₁, v) :: updRow t k f d

/-- Remove the entry at a key (model of `HashMap::remove`). -/
def eraseKey {κ : Type u} {α : Type v} [DecidableEq κ] : List (κ × α) → κ → List (κ × α)
  | [], _ => []
  | (k, v) :: t, k' => if k = k' then t else (k, v) :: eraseKey t k'

/-- Insert or overwrite the entry at a key (model of `HashMap::insert` /
`entry(k).or_insert_with(..)` followed by in-place mutation of the value). -/
def putRow {κ : Type u} {α : Type v} [DecidableEq κ] (l : List (κ × α)) (k : κ) (v : α) :
    List (κ × α) :=
  match l with
  | [] => [(k, v)]
  | (k₁, v₁) :: t => if k₁ = k then (k₁, v) :: t else (k₁, v₁) :: putRow t k v

/-! ## Bypass profiler: data model (src/proxy/net_profiler.rs) -/

/-- `std::net::IpAddr`: a v4 address as four octets, or a v6 address as its
sixteen octets. -/
inductive IpAddr where
  | v4 (a b c d : Nat)
  | v6 (octets : List Nat)
  deriving DecidableEq, Repr

/-- `PingResult` from net_profiler.rs: `last_time` is the `Instant` in
absolute seconds; the four metrics are u8/u16 values with the sentinel
`u8::MAX = 255` / `u16::MAX = 65535` meaning "unknown". -/
structure PingResult where
  last_time : Nat
  local_lost : Nat
  local_ping : Nat
  remote_lost : Nat
  remote_ping : Nat
  deriving DecidableEq, Repr

/-- `PingResult::is_complete`. -/
def PingResult.is_complete (pr : PingResult) : Bool :=
  (pr.local_lost != 255) && (pr.local_ping != 65535)
    && (pr.remote_lost != 255) && (pr.remote_ping != 65535)

/-- `impl Default for PingResult`: all four metrics at their sentinel,
`last_time = Instant::now()`. -/
def PingResult.mkDefault (now : Nat) : PingResult :=
  { last_time := now, local_lost := 255, local_ping := 65535
    remote_lost := 255, remote_ping := 65535 }

/-- The write performed by `NetProfiler::update` on a local probe response:
`pr.local_lost = lost.min(u8::MAX - 1); pr.local_ping = ping.min(u16::MAX - 1)`. -/
def PingResult.storeLocal (pr : PingResult) (ping lost : Nat) : PingResult :=
  { pr with local_lost := min lost 254, local_ping := min ping 65534 }

/-- The write performed by `NetProfiler::decode` on a remote response:
`pr.remote_lost = lost.min(u8::MAX - 1); pr.remote_ping = ping.min(u16::MAX - 1)`. -/
def PingResult.storeRemote (pr : PingResult) (ping lost : Nat) : PingResult :=
  { pr with remote_lost := min lost 254, remote_ping := min ping 65534 }

/-- `Condition` from net_profiler.rs: the relay baseline `ping` (u16 ms) and
`lost` (u8 percent). -/
structure Condition where
  ping : Nat
  lost : Nat
  deriving DecidableEq, Repr

/-- `NetProfiler` state. The three channel endpoints created by
`NetProfiler::new` are modelled by their presence (they are `Some` exactly
when profiling is enabled); `conn` by whether the ping TLS channel is
attached; `send_buffer` as the pending unsent bytes. -/
structure NetProfiler where
  set : List (IpAddr × PingResult)
  hasCheckSender : Bool
  hasRespReceiver : Bool
  hasIpsetSender : Bool
  hasConn : Bool
  send_buffer : List Nat
  deriving DecidableEq, Repr

/-- `NetProfiler::new`: with `enable = false` no channels are created; the
table starts empty and the buffers empty, `conn` is `None`. The two ipset
name arguments only configure the spawned routines and are omitted. -/
def NetProfiler.new (enable : Bool) : NetProfiler :=
  { set := [], hasCheckSender := enable, hasRespReceiver := enable
    hasIpsetSender := enable, hasConn := false, send_buffer := [] }

/-- Modelled from the spec: the `proto::IPV4`/`proto::IPV6` ATYP constants
(the proto module is not under src/); spec section 4.3 fixes IPv4 = 0x01 and
IPv6 = 0x04. `NetProfiler::send_remote_ip` pushes the ATYP byte and then the
raw octets of the address. -/
def encodeIp : IpAddr → List Nat
  | .v4 a b c d => [1, a, b, c, d]
  | .v6 octets => 4 :: octets

/-- `NetProfiler::send_remote_ip`: append the encoded address to
`send_buffer`; when the ping connection is present, `write_session` the whole
buffer (returned as wire bytes) and leave `send_buffer` empty. -/
def NetProfiler.send_remote_ip (s : NetProfiler) (ip : IpAddr) : NetProfiler × List Nat :=
  let buf := s.send_buffer ++ encodeIp ip
  if s.hasConn then ({ s with send_buffer := [] }, buf)
  else ({ s with send_buffer := buf }, [])

/-- The trailing part of `NetProfiler::check` once the debounce test has
passed: encode the request, enqueue the ip on the check channel (the channel
send succeeds while the check routine is alive), and set the row's
`last_time` to now, inserting a default row if absent. -/
def NetProfiler.checkSend (s : NetProfiler) (ip : IpAddr) (now : Nat) :
    NetProfiler × List Nat × List IpAddr :=
  let (s1, wire) := s.send_remote_ip ip
  let s2 := { s1 with
    set := updRow s1.set ip (fun pr => { pr with last_time := now }) (.mkDefault now) }
  (s2, wire, [ip])

/-- `NetProfiler::check`: returns the new state, the bytes written to the
ping TLS channel, and the ips enqueued for the local probe routine. -/
def NetProfiler.check (s : NetProfiler) (ip : IpAddr) (now : Nat) :
    NetProfiler × List Nat × List IpAddr :=
  if s.hasCheckSender = false then (s, [], [])
  else
    match alookup s.set ip with
    | some pr => if now - pr.last_time < 3600 then (s, [], []) else s.checkSend ip now
    | none => s.checkSend ip now

/-! ## Bypass profiler: the reconciliation pass `NetProfiler::update` -/

/-- Group a list into maximal runs of consecutive elements sharing a key
(the semantics of `itertools::Itertools::group_by`). -/
def groupRuns {α : Type u} (k : α → Bool) : List α → List (Bool × List α)
  | [] => []
  | x :: xs =>
    match groupRuns k xs with
    | [] => [(k x, [x])]
    | (b, ys) :: rest => if k x = b then (b, x :: ys) :: rest else (k x, [x]) :: (b, ys) :: rest

/-- The value a repeatedly reassigned variable holds after the `group_by`
loop in `NetProfiler::update`: the last run carrying the given key, or `[]`
when no run does. -/
def lastRun {α : Type u} (groups : List (Bool × List α)) (b : Bool) : List α :=
  match (groups.filter (fun g => g.1 = b)).getLast? with
  | some g => g.2
  | none => []

/-- The Rust `as u8` saturating cast applied to the f32 quotient
`prod / 100.0`: negative values clamp to 0, values above 255 clamp to 255,
non-negative values truncate. For `|prod| ≤ 24025` the f32 computation is
exact enough that the truncation agrees with exact integer division. -/
def satCastU8 (prod : Int) : Nat :=
  if prod < 0 then 0 else min 255 (prod.toNat / 100)

/-- The `proxy_lost` computation of `NetProfiler::update`:
`100 - ((100.0 - cond.lost as f32) * (100.0 - remote_lost as f32) / 100.0) as u8`,
a u8 subtraction that wraps in release mode (hence the `% 256`). -/
def proxyLostU8 (condLost remoteLost : Nat) : Nat :=
  (((100 : Int) - (satCastU8 (((100 : Int) - condLost) * ((100 : Int) - remoteLost)) : Int)).emod
    256).toNat

/-- The per-row bypass decision in `NetProfiler::update`:
`proxy_ping = cond.ping + pr.remote_ping` (u16 addition, wraps in release
mode), and bypass iff `local_ping < proxy_ping && local_lost < proxy_lost &&
local_ping > remote_ping`. -/
def bypassDecision (cond : Condition) (pr : PingResult) : Bool :=
  let proxy_ping := (cond.ping + pr.remote_ping) % 65536
  let proxy_lost := proxyLostU8 cond.lost pr.remote_lost
  (pr.local_ping < proxy_ping) && (pr.local_lost < proxy_lost)
    && (pr.local_ping > pr.remote_ping)

/-- `NetProfiler::update`. Inputs: the drained local-probe responses
`(ip, ping, lost)`, the `CONDITION` snapshot and the current time. Returns
`none` when the code panics (the `ipset_sender.unwrap()` on a disabled
profiler that still has a response receiver), otherwise the new state, the
bytes re-sent on the ping channel for stale incomplete rows, and the
decisions sent to the routing sink. The two `group_by` runs mirror
itertools' consecutive-run grouping, each run overwriting the previously
collected list. -/
def NetProfiler.update (s : NetProfiler) (resps : List (IpAddr × Nat × Nat))
    (cond : Condition) (now : Nat) :
    Option (NetProfiler × List Nat × List (IpAddr × Bool)) :=
  if s.hasRespReceiver = false then some (s, [], [])
  else
    let set1 := resps.foldl
      (fun acc r => mapRow acc r.1 (fun pr => pr.storeLocal r.2.1 r.2.2)) s.set
    let groups := groupRuns (fun e => e.2.is_complete) set1
    let complete := lastRun groups true
    let ips0 := (lastRun groups false).filterMap
      (fun e => if now - e.2.last_time > 100 then some e.1 else none)
    let (s1, wire) := ips0.foldl
      (fun (acc : NetProfiler × List Nat) ip =>
        let (st, w) := acc.1.send_remote_ip ip
        (st, acc.2 ++ w))
      ({ s with set := set1 }, [])
    if complete.isEmpty then some (s1, wire, [])
    else if s.hasIpsetSender = false then none
    else some (s1, wire, complete.map (fun e => (e.1, bypassDecision cond e.2)))

/-! ## Bypass profiler: `NetProfiler::decode` (ping channel record decoding) -/

/-- The byte at an index of a buffer (0 past the end). -/
def byteAt (buf : List Nat) (n : Nat) : Nat := (buf.drop n).headD 0

/-- The loop body of `NetProfiler::decode`, structurally recursive on fuel
(each iteration consumes at least 8 bytes, so `buf.length + 1` steps
suffice). `none` models the `unreachable!` panic on a first byte that is
neither `proto::IPV4` (0x01) nor `proto::IPV6` (0x04); a short buffer breaks
the loop keeping the residual; a decoded response stores the clamped remote
metrics when the ip is in the table. -/
def decodeGo : Nat → List Nat → List (IpAddr × PingResult) →
    Option (List Nat × List (IpAddr × PingResult))
  | 0, buf, set => some (buf, set)
  | fuel + 1, buf, set =>
    match buf with
    | [] => some ([], set)
    | b :: _ =>
      if b = 1 then
        if buf.length < 8 then some (buf, set)
        else
          let ip : IpAddr := .v4 (byteAt buf 1) (byteAt buf 2) (byteAt buf 3) (byteAt buf 4)
          let ping := byteAt buf 5 * 256 + byteAt buf 6
          let lost := byteAt buf 7
          decodeGo fuel (buf.drop 8) (mapRow set ip (fun pr => pr.storeRemote ping lost))
      else if b = 4 then
        if buf.length < 20 then some (buf, set)
        else
          let ip : IpAddr := .v6 ((buf.drop 1).take 16)
          let ping := byteAt buf 17 * 256 + byteAt buf 18
          let lost := byteAt buf 19
          decodeGo fuel (buf.drop 20) (mapRow set ip (fun pr => pr.storeRemote ping lost))
      else none

/-- `NetProfiler::decode`: run the decode loop over the accumulated
`recv_buffer`, returning the residual buffer and the updated table, or
`none` when the code panics on an invalid ATYP. -/
def NetProfiler.decode (buf : List Nat) (set : List (IpAddr × PingResult)) :
    Option (List Nat × List (IpAddr × PingResult)) :=
  decodeGo (buf.length + 1) buf set

/-! ## UDP flow worker (src/wintun/udp1.rs) -/

/-- The result of one `Write::write` (or `flush`) call on the TLS stream:
`ok n` bytes accepted, `WouldBlock`, or a hard error. A list of these acts
as the oracle for the remote TLS connection. -/
inductive WriteRes where
  | ok (n : Nat)
  | wouldBlock
  | err
  deriving DecidableEq, Repr

/-- `Connection` from udp1.rs: token, local smoltcp socket handle
(`localHandle` here because `local` is reserved in Lean), the
closed flag, the outbound staging buffer `rbuffer`, the inbound parse
residual `lbuffer`, the source endpoint (endpoints are abstract keys), and
the associate flag. The `remote: TlsConn` is modelled by the write/read
oracles passed to each operation. -/
structure Connection where
  token : Nat
  localHandle : Nat
  rclosed : Bool
  rbuffer : List Nat
  lbuffer : List Nat
  endpoint : Nat
  established : Bool
  deriving DecidableEq, Repr

/-- `Connection::close_remote`: close the TLS side once. -/
def Connection.close_remote (c : Connection) : Connection :=
  if c.rclosed then c else { c with rclosed := true }

/-- Outcome of `utils::send_all`. -/
inductive SendOutcome where
  | doneAll
  | blocked
  | errored
  deriving DecidableEq, Repr

/-- Modelled from the spec: `utils::send_all` is not under src/. It writes
the buffer to the stream until it is drained (`Ok(true)`), the stream would
block (`Ok(false)`, the unsent remainder is kept in the buffer), or a hard
error occurs. Returns the remaining oracle, the bytes accepted by the
stream, the leftover buffer and the outcome; an exhausted oracle or a
zero-byte write count as blocked/errored respectively. -/
def sendAllGo : List WriteRes → List Nat → List WriteRes × List Nat × List Nat × SendOutcome
  | oracle, [] => (oracle, [], [], .doneAll)
  | [], buf => ([], [], buf, .blocked)
  | .ok 0 :: os, buf => (os, [], buf, .errored)
  | .ok (n + 1) :: os, buf =>
    let m := min (n + 1) buf.length
    let (os', w, left, out) := sendAllGo os (buf.drop m)
    (os', buf.take m ++ w, left, out)
  | .wouldBlock :: os, buf => (os, [], buf, .blocked)
  | .err :: os, buf => (os, [], buf, .errored)

/-- `Connection::flush_remote`: one `flush` on the TLS stream, consuming one
oracle entry; only a hard error closes the connection. -/
def Connection.flush_remote (c : Connection) (oracle : List WriteRes) :
    Connection × List WriteRes :=
  match oracle with
  | [] => (c, [])
  | .err :: os => (c.close_remote, os)
  | _ :: os => (c, os)

/-- The `while !data.is_empty()` write loop of `Connection::local_to_remote`:
returns the remaining oracle, the bytes accepted by the stream, the final
`offset`, the unwritten `data` slice at loop exit, and whether the
connection was closed (a zero-byte write or a hard error, which in the
source return immediately without caching). When `data` drains exactly at
the end of `header`, the loop switches `data` to `body`. -/
def writeLoop : List WriteRes → List Nat → Nat → List Nat → List Nat →
    List WriteRes × List Nat × Nat × List Nat × Bool
  | oracle, [], offset, _, _ => (oracle, [], offset, [], false)
  | [], data, offset, _, _ => ([], [], offset, data, false)
  | .ok 0 :: os, _, offset, _, _ => (os, [], offset, [], true)
  | .ok (n + 1) :: os, data, offset, header, body =>
    let m := min (n + 1) data.length
    let consumed := data.take m
    let data1 := data.drop m
    let offset1 := offset + m
    let data2 := if data1 = [] ∧ offset1 = header.length then body else data1
    let (os', w, off', dl, cl) := writeLoop os data2 offset1 header body
    (os', consumed ++ w, off', dl, cl)
  | .wouldBlock :: os, data, offset, _, _ => (os, [], offset, data, false)
  | .err :: os, data, offset, _, _ => (os, [], offset, data, true)

/-- The part of `Connection::local_to_remote` after the staging buffer has
been drained: write `header` then `body`; on close (zero-byte write or hard
error) return at once; otherwise cache whatever could not be written in the
staging buffer (re-appending `body` whenever the leftover slice is shorter
than `header`, exactly as the source's `if data.len() < header.len()`
does), then flush. -/
def localToRemoteRest (c1 : Connection) (os1 : List WriteRes) (w1 : List Nat)
    (header body : List Nat) : Connection × List Nat :=
  let (os2, w2, offset, dataLeft, closed) := writeLoop os1 header 0 header body
  if closed then (c1.close_remote, w1 ++ w2)
  else
    let remaining := header.length + body.length - offset
    let c2 := if remaining ≠ 0 then
        { c1 with rbuffer := c1.rbuffer ++ dataLeft ++
            (if dataLeft.length < header.length then body else []) }
      else c1
    ((Connection.flush_remote c2 os2).1, w1 ++ w2)

/-- `Connection::local_to_remote`: first drain the staging buffer with
`send_all` (on partial progress flush and return, on error close and
return), then hand over to the header/body write loop. Returns the
connection and the bytes accepted by the TLS stream. -/
def Connection.local_to_remote (c : Connection) (oracle : List WriteRes)
    (header body : List Nat) : Connection × List Nat :=
  if c.rbuffer = [] then localToRemoteRest c oracle [] header body
  else
    let (os1, w1, left, out) := sendAllGo oracle c.rbuffer
    match out with
    | .doneAll => localToRemoteRest { c with rbuffer := [] } os1 w1 header body
    | .blocked => ((Connection.flush_remote { c with rbuffer := left } os1).1, w1)
    | .errored => (Connection.close_remote { c with rbuffer := left }, w1)

/-- `Connection::do_local`: a new outbound datagram for this flow, already
encoded as `header` (address + length + CRLF) and `body` (the payload). If
the staging buffer is non-empty the datagram is discarded; if the tunnel is
not yet associated the encoded bytes are cached in the staging buffer;
otherwise they are written out. Returns the connection and the bytes
accepted by the TLS stream. -/
def Connection.do_local (c : Connection) (oracle : List WriteRes)
    (header body : List Nat) : Connection × List Nat :=
  if c.rbuffer ≠ [] then (c, [])
  else if c.established = false then ({ c with rbuffer := c.rbuffer ++ header ++ body }, [])
  else c.local_to_remote oracle header body

/-! ## UDP flow worker: inbound record parsing -/

/-- `proto::UdpParseResultEndpoint`; `Packet` carries the record's payload
length and the buffer slice starting at the payload (the caller takes
`packet.payload[..length]` as the datagram and continues parsing at
`packet.payload[length..]`). -/
inductive UdpParseResultEndpoint where
  | Continued
  | Packet (length : Nat) (rest : List Nat)
  | InvalidProtocol
  deriving DecidableEq, Repr

/-- Modelled from the spec: `proto::UdpAssociate::parse_endpoint` is not
under src/. Spec section 4.3: a UDP record is
`ATYP || addr || PORT(2) || LEN(2) || CRLF || payload[LEN]` with ATYP
IPv4 = 0x01 (4 address bytes) or IPv6 = 0x04 (16 address bytes); LEN is
big-endian; parsing is streaming, returning `Continued` on a short buffer
and `InvalidProtocol` on an invalid ATYP. -/
def parseAddrLen (atyp : Nat) : Nat := if atyp = 1 then 4 else 16

/-- The size of a record up to and including the CRLF:
`1 (ATYP) + addr + 2 (PORT) + 2 (LEN) + 2 (CRLF)`. -/
def parseHeaderLen (atyp : Nat) : Nat := parseAddrLen atyp + 7

/-- The big-endian LEN field of the record at the head of the buffer. -/
def parseLen (atyp : Nat) (buf : List Nat) : Nat :=
  byteAt buf (parseAddrLen atyp + 3) * 256 + byteAt buf (parseAddrLen atyp + 4)

def parse_endpoint (buf : List Nat) : UdpParseResultEndpoint :=
  match buf with
  | [] => .Continued
  | atyp :: _ =>
    if atyp = 1 ∨ atyp = 4 then
      if buf.length < parseHeaderLen atyp then .Continued
      else if buf.length < parseHeaderLen atyp + parseLen atyp buf then .Continued
      else .Packet (parseLen atyp buf) (buf.drop (parseHeaderLen atyp))
    else .InvalidProtocol

/-- A well-formed UDP record as structured data: a v4 or v6 origin address,
a port and a payload. -/
structure UdpRecord where
  v6 : Bool
  addr : List Nat
  port : Nat
  payload : List Nat
  deriving DecidableEq, Repr

/-- Well-formedness: the address has the arity its family demands and the
payload length fits the 16-bit LEN field. -/
def wfRecord (r : UdpRecord) : Prop :=
  r.addr.length = (if r.v6 then 16 else 4) ∧ r.payload.length < 65536

instance (r : UdpRecord) : Decidable (wfRecord r) := by
  unfold wfRecord; infer_instance

/-- Modelled from the spec: the wire encoding of one UDP record
(`proto::UdpAssociate::generate_endpoint` is not under src/), per spec
section 4.3. -/
def encodeRecord (r : UdpRecord) : List Nat :=
  (if r.v6 then 4 else 1) ::
    (r.addr ++ r.port / 256 % 256 :: r.port % 256 ::
      r.payload.length / 256 :: r.payload.length % 256 :: 13 :: 10 :: r.payload)

/-- A sequence of encoded records followed by a trailing partial tail. -/
def encodeAll (rs : List UdpRecord) (tail : List Nat) : List Nat :=
  rs.foldr (fun r acc => encodeRecord r ++ acc) tail

/-- The inner parse loop of `Connection::remote_to_local`, structurally
recursive on fuel (every parsed record consumes at least one byte, so
`buffer.length + 1` steps suffice). Returns the datagrams delivered to the
local socket, each addressed to the connection's source endpoint, the
residual buffer at `Continued`, and whether an invalid record closed the
connection. -/
def recordLoopGo : Nat → Nat → List Nat → List (Nat × List Nat) × List Nat × Bool
  | 0, _, buffer => ([], buffer, false)
  | fuel + 1, ep, buffer =>
    match parse_endpoint buffer with
    | .Continued => ([], buffer, false)
    | .InvalidProtocol => ([], buffer, true)
    | .Packet len rest =>
      let out := recordLoopGo fuel ep (rest.drop len)
      ((ep, rest.take len) :: out.1, out.2.1, out.2.2)

/-- The inner parse loop of `Connection::remote_to_local` with sufficient
fuel. -/
def recordLoop (ep : Nat) (buffer : List Nat) : List (Nat × List Nat) × List Nat × Bool :=
  recordLoopGo (buffer.length + 1) ep buffer

/-- The result of one `Read::read` on the TLS stream. -/
inductive ReadRes where
  | data (d : List Nat)
  | wouldBlock
  | eof
  | err
  deriving DecidableEq, Repr

/-- One iteration of `Connection::remote_to_local` (one read from the TLS
stream followed by the parse loop). `WouldBlock` restores the buffer length
and returns; eof or a read error closes the connection; read data is
appended to `lbuffer`, the parse loop delivers one datagram per complete
record to the source endpoint, and on `Continued` the unconsumed tail is
compacted to the front of `lbuffer`; an invalid record closes the
connection. -/
def Connection.remote_to_local_step (c : Connection) (r : ReadRes) :
    Connection × List (Nat × List Nat) :=
  match r with
  | .wouldBlock => (c, [])
  | .eof => (c.close_remote, [])
  | .err => (c.close_remote, [])
  | .data d =>
    let buf := c.lbuffer ++ d
    let res := recordLoop c.endpoint buf
    if res.2.2 then ({ c.close_remote with lbuffer := buf }, res.1)
    else ({ c with lbuffer := res.2.1 }, res.1)

/-! ## UDP flow table (`UdpServer` in src/wintun/udp1.rs) -/

/-- `UdpServer` state: the token-keyed and source-endpoint-keyed connection
maps and the destination-endpoint-keyed activity timestamps (`sockets`,
holding the `Instant` of the last outbound datagram in absolute seconds). -/
structure UdpServerState where
  token2conns : List (Nat × Connection)
  addr2conns : List (Nat × Connection)
  sockets : List (Nat × Nat)
  deriving DecidableEq, Repr

/-- `UdpServer::check_timeout`: collect the connections looked up in
`addr2conns` under the keys of `sockets` entries idle for more than 600
seconds, then for each collected connection remove its `sockets` entry (by
`conn.endpoint`), remove its local smoltcp socket (returned as the list of
removed handles) and drop it from both connection maps. -/
def UdpServer.check_timeout (s : UdpServerState) (now : Nat) : UdpServerState × List Nat :=
  let conns := s.sockets.filterMap
    (fun e => if now - e.2 > 600 then alookup s.addr2conns e.1 else none)
  conns.foldl
    (fun (acc : UdpServerState × List Nat) c =>
      ({ sockets := eraseKey acc.1.sockets c.endpoint
         token2conns := eraseKey acc.1.token2conns c.token
         addr2conns := eraseKey acc.1.addr2conns c.endpoint },
       acc.2 ++ [c.localHandle]))
    (s, [])

/-- The body of the datagram loop in `UdpServer::do_local` for one outbound
datagram from `src`: reuse the connection keyed by the source endpoint or
build a new one from `pool.get(..)` — whose `unwrap()` panics (modelled as
`none`) when the pool hands out nothing — register it in both maps, run
`Connection::do_local` with the encoded `header`/`body`, store the mutated
connection, and drop it from both maps when it ended up closed. Returns the
new state and the bytes accepted by the TLS stream. -/
def UdpServer.handleDatagram (s : UdpServerState) (poolGet : Option Nat)
    (oracle : List WriteRes) (src handle : Nat) (header body : List Nat) :
    Option (UdpServerState × List Nat) :=
  let conn? : Option Connection :=
    match alookup s.addr2conns src with
    | some c => some c
    | none =>
      match poolGet with
      | none => none
      | some tok =>
        some { token := tok, localHandle := handle, rclosed := false, rbuffer := []
               lbuffer := [], endpoint := src, established := false }
  match conn? with
  | none => none
  | some conn =>
    let s1 := { s with addr2conns := putRow s.addr2conns src conn
                       token2conns := putRow s.token2conns conn.token conn }
    let (c', wire) := conn.do_local oracle header body
    let s2 := { s1 with addr2conns := putRow s1.addr2conns src c'
                        token2conns := putRow s1.token2conns c'.token c' }
    some (if c'.rclosed then
        { s2 with token2conns := eraseKey s2.token2conns c'.token
                  addr2conns := eraseKey s2.addr2conns c'.endpoint }
      else s2, wire)

/-! ## Mobile lifecycle bridge (src/mobile/src-tauri/src/platform/android.rs) -/

/-- The failure modes of the bridge entry points that the model can hit. -/
inductive VpnError where
  | NoPlatformContext
  deriving DecidableEq, Repr

/-- `AndroidContext`: the stored tun file descriptor and the shared running
flag (the JVM handle is irrelevant to the modelled behaviour). -/
structure AndroidContext where
  fd : Int
  running : Bool
  deriving DecidableEq, Repr

/-- The process-wide `CONTEXT`, `None` before `init_rust`. -/
structure BridgeState where
  context : Option AndroidContext
  deriving DecidableEq, Repr

/-- Result of `on_vpn_start`: the new bridge state, the error if any, the
events emitted on the calling thread and the events emitted later by the
spawned engine thread; events are `(name, code)` pairs. -/
structure StartResult where
  state : BridgeState
  error : Option VpnError
  events : List (String × Nat)
  threadEvents : List (String × Nat)
  deriving DecidableEq, Repr

/-- Result of `on_vpn_stop`. -/
structure StopResult where
  state : BridgeState
  error : Option VpnError
  events : List (String × Nat)
  deriving DecidableEq, Repr

/-- `on_vpn_start(fd)`: without a platform context it fails with
`NoPlatformContext` and emits nothing. Otherwise it stores the fd, arms a
fresh running flag, spawns the engine thread — which emits
`on_status_changed(2)` exactly when `process_vpn` returns an error
(`runFails`) — and emits `on_status_changed(1)`. -/
def on_vpn_start (s : BridgeState) (fd : Int) (runFails : Bool) : StartResult :=
  match s.context with
  | none => { state := s, error := some .NoPlatformContext, events := [], threadEvents := [] }
  | some _ =>
    { state := { context := some { fd := fd, running := true } }
      error := none
      events := [("on_status_changed", 1)]
      threadEvents := if runFails then [("on_status_changed", 2)] else [] }

/-- `on_vpn_stop()`: without a platform context it fails with
`NoPlatformContext` and emits nothing. Otherwise it clears the fd, lowers
the running flag and emits `on_status_changed(3)`. -/
def on_vpn_stop (s : BridgeState) : StopResult :=
  match s.context with
  | none => { state := s, error := some .NoPlatformContext, events := [] }
  | some ctx =>
    { state := { context := some { ctx with fd := -1, running := false } }
      error := none
      events := [("on_status_changed", 3)] }

/-! ## Concrete scenario states used by the claim checks -/

/-- A complete profiler row: both probes answered. -/
def prComplete : PingResult :=
  { last_time := 0, local_lost := 0, local_ping := 40, remote_lost := 0, remote_ping := 20 }

/-- A second complete profiler row. -/
def prComplete' : PingResult :=
  { last_time := 0, local_lost := 0, local_ping := 50, remote_lost := 0, remote_ping := 20 }

/-- An enabled profiler whose table iterates as
complete row, incomplete row, complete row. -/
def profilerC1 : NetProfiler :=
  { set := [(.v4 1 1 1 1, prComplete), (.v4 2 2 2 2, PingResult.mkDefault 0),
            (.v4 3 3 3 3, prComplete')]
    hasCheckSender := true, hasRespReceiver := true, hasIpsetSender := true
    hasConn := true, send_buffer := [] }

/-- An established UDP-associate connection with an empty parse residual. -/
def connEstablished : Connection :=
  { token := 1, localHandle := 2, rclosed := false, rbuffer := [], lbuffer := []
    endpoint := 9, established := true }

/-- A connection whose staging buffer holds one pending byte. -/
def connPending : Connection := { connEstablished with rbuffer := [7], established := false }

/-- A not-yet-associated connection with an empty staging buffer. -/
def connFresh : Connection := { connEstablished with established := false }

/-- A UDP flow idle for more than 600 seconds: the activity timestamp is
keyed by the flow's destination endpoint 2 while the connection map is
keyed by its source endpoint 1. -/
def connIdle : Connection :=
  { token := 5, localHandle := 7, rclosed := false, rbuffer := [], lbuffer := []
    endpoint := 1, established := true }

/-- The flow table holding only `connIdle`, last active at second 0. -/
def serverIdle : UdpServerState :=
  { token2conns := [(5, connIdle)], addr2conns := [(1, connIdle)], sockets := [(2, 0)] }

/-- A well-formed inbound UDP record: origin 8.8.8.8:53, three payload
bytes. -/
def recDns : UdpRecord := { v6 := false, addr := [8, 8, 8, 8], port := 53, payload := [1, 2, 3] }

/-- A bridge state after `init_rust`: a platform context is present. -/
def bridgeReady : BridgeState := { context := some { fd := -1, running := false } }

/-- An enabled profiler with an empty table, no ping connection and an empty
send buffer. -/
def profilerEnabledEmpty : NetProfiler :=
  { set := [], hasCheckSender := true, hasRespReceiver := true
    hasIpsetSender := true, hasConn := false, send_buffer := [] }

/-! ## Helper lemmas -/

theorem drop_append_add {α : Type u} (l₁ l₂ : List α) (n : Nat) :
    (l₁ ++ l₂).drop (l₁.length + n) = l₂.drop n := by
  induction l₁ with
  | nil => simp
  | cons a t ih =>
    have h : t.length + 1 + n = (t.length + n) + 1 := by omega
    simp [List.cons_append, List.length_cons, h, List.drop_succ_cons, ih]

theorem byteAt_append_add (l₁ l₂ : List Nat) (n : Nat) :
    byteAt (l₁ ++ l₂) (l₁.length + n) = byteAt l₂ n := by
  unfold byteAt; rw [drop_append_add]

theorem alookup_updRow_self {κ : Type u} {α : Type v} [DecidableEq κ]
    (l : List (κ × α)) (k : κ) (f : α → α) (d : α) :
    alookup (updRow l k f d) k = some (f ((alookup l k).getD d)) := by
  induction l with
  | nil => simp [updRow, alookup]
  | cons h t ih =>
    obtain ⟨k₁, v⟩ := h
    by_cases hk : k₁ = k
    · subst hk; simp [updRow, alookup]
    · simp [updRow, alookup, hk, ih]

theorem parse_encodeRecord (r : UdpRecord) (s : List Nat) (h : wfRecord r) :
    parse_endpoint (encodeRecord r ++ s)
      = .Packet r.payload.length (r.payload ++ s) := by
  obtain ⟨hlen, hpl⟩ := h
  cases hv : r.v6
  case false =>
    rw [hv] at hlen; simp only [if_false, Bool.false_eq_true] at hlen
    have hsplit : encodeRecord r ++ s
        = 1 :: (r.addr ++ (r.port / 256 % 256 :: r.port % 256 :: r.payload.length / 256 ::
            r.payload.length % 256 :: 13 :: 10 :: (r.payload ++ s))) := by
      simp [encodeRecord, hv]
    rw [hsplit]
    have hb7 : byteAt (1 :: (r.addr ++ (r.port / 256 % 256 :: r.port % 256 ::
        r.payload.length / 256 :: r.payload.length % 256 :: 13 :: 10 :: (r.payload ++ s)))) 7
        = r.payload.length / 256 := by
      show byteAt (r.addr ++ (r.port / 256 % 256 :: r.port % 256 ::
        r.payload.length / 256 :: r.payload.length % 256 :: 13 :: 10 :: (r.payload ++ s))) 6
        = r.payload.length / 256
      rw [show (6 : Nat) = r.addr.length + 2 by omega, byteAt_append_add]
      rfl
    have hb8 : byteAt (1 :: (r.addr ++ (r.port / 256 % 256 :: r.port % 256 ::
        r.payload.length / 256 :: r.payload.length % 256 :: 13 :: 10 :: (r.payload ++ s)))) 8
        = r.payload.length % 256 := by
      show byteAt (r.addr ++ (r.port / 256 % 256 :: r.port % 256 ::
        r.payload.length / 256 :: r.payload.length % 256 :: 13 :: 10 :: (r.payload ++ s))) 7
        = r.payload.length % 256
      rw [show (7 : Nat) = r.addr.length + 3 by omega, byteAt_append_add]
      rfl
    have hlenbuf : (1 :: (r.addr ++ (r.port / 256 % 256 :: r.port % 256 ::
        r.payload.length / 256 :: r.payload.length % 256 :: 13 :: 10 :: (r.payload ++ s)))).length
        = 11 + (r.payload.length + s.length) := by
      simp [hlen]; omega
    have hplen : parseLen 1 (1 :: (r.addr ++ (r.port / 256 % 256 :: r.port % 256 ::
        r.payload.length / 256 :: r.payload.length % 256 :: 13 :: 10 :: (r.payload ++ s))))
        = r.payload.length := by
      unfold parseLen parseAddrLen
      norm_num
      rw [hb7, hb8]
      omega
    have hdrop : (1 :: (r.addr ++ (r.port / 256 % 256 :: r.port % 256 ::
        r.payload.length / 256 :: r.payload.length % 256 :: 13 :: 10 :: (r.payload ++ s)))).drop 11
        = r.payload ++ s := by
      show (r.addr ++ (r.port / 256 % 256 :: r.port % 256 ::
        r.payload.length / 256 :: r.payload.length % 256 :: 13 :: 10 :: (r.payload ++ s))).drop 10
        = r.payload ++ s
      rw [show (10 : Nat) = r.addr.length + 6 by omega, drop_append_add]
      rfl
    simp only [parse_endpoint]
    rw [if_pos (Or.inl trivial)]
    have hhl : parseHeaderLen 1 = 11 := rfl
    rw [hhl, hplen, hdrop, hlenbuf]
    rw [if_neg (by omega), if_neg (by omega)]
  case true =>
    rw [hv] at hlen; simp only [if_true] at hlen
    have hsplit : encodeRecord r ++ s
        = 4 :: (r.addr ++ (r.port / 256 % 256 :: r.port % 256 :: r.payload.length / 256 ::
            r.payload.length % 256 :: 13 :: 10 :: (r.payload ++ s))) := by
      simp [encodeRecord, hv]
    rw [hsplit]
    have hb19 : byteAt (4 :: (r.addr ++ (r.port / 256 % 256 :: r.port % 256 ::
        r.payload.length / 256 :: r.payload.length % 256 :: 13 :: 10 :: (r.payload ++ s)))) 19
        = r.payload.length / 256 := by
      show byteAt (r.addr ++ (r.port / 256 % 256 :: r.port % 256 ::
        r.payload.length / 256 :: r.payload.length % 256 :: 13 :: 10 :: (r.payload ++ s))) 18
        = r.payload.length / 256
      rw [show (18 : Nat) = r.addr.length + 2 by omega, byteAt_append_add]
      rfl
    have hb20 : byteAt (4 :: (r.addr ++ (r.port / 256 % 256 :: r.port % 256 ::
        r.payload.length / 256 :: r.payload.length % 256 :: 13 :: 10 :: (r.payload ++ s)))) 20
        = r.payload.length % 256 := by
      show byteAt (r.addr ++ (r.port / 256 % 256 :: r.port % 256 ::
        r.payload.length / 256 :: r.payload.length % 256 :: 13 :: 10 :: (r.payload ++ s))) 19
        = r.payload.length % 256
      rw [show (19 : Nat) = r.addr.length + 3 by omega, byteAt_append_add]
      rfl
    have hlenbuf : (4 :: (r.addr ++ (r.port / 256 % 256 :: r.port % 256 ::
        r.payload.length / 256 :: r.payload.length % 256 :: 13 :: 10 :: (r.payload ++ s)))).length
        = 23 + (r.payload.length + s.length) := by
      simp [hlen]; omega
    have hplen : parseLen 4 (4 :: (r.addr ++ (r.port / 256 % 256 :: r.port % 256 ::
        r.payload.length / 256 :: r.payload.length % 256 :: 13 :: 10 :: (r.payload ++ s))))
        = r.payload.length := by
      unfold parseLen parseAddrLen
      norm_num
      rw [hb19, hb20]
      omega
    have hdrop : (4 :: (r.addr ++ (r.port / 256 % 256 :: r.port % 256 ::
        r.payload.length / 256 :: r.payload.length % 256 :: 13 :: 10 :: (r.payload ++ s)))).drop 23
        = r.payload ++ s := by
      show (r.addr ++ (r.port / 256 % 256 :: r.port % 256 ::
        r.payload.length / 256 :: r.payload.length % 256 :: 13 :: 10 :: (r.payload ++ s))).drop 22
        = r.payload ++ s
      rw [show (22 : Nat) = r.addr.length + 6 by omega, drop_append_add]
      rfl
    simp only [parse_endpoint]
    rw [if_pos (Or.inr trivial)]
    have hhl : parseHeaderLen 4 = 23 := rfl
    rw [hhl, hplen, hdrop, hlenbuf]
    rw [if_neg (by omega), if_neg (by omega)]

theorem recordLoopGo_encodeAll (ep : Nat) (rs : List UdpRecord) (t : List Nat) (fuel : Nat)
    (hwf : ∀ r ∈ rs, wfRecord r) (ht : parse_endpoint t = .Continued)
    (hfuel : (encodeAll rs t).length < fuel) :
    recordLoopGo fuel ep (encodeAll rs t)
      = (rs.map (fun r => (ep, r.payload)), t, false) := by
  induction rs generalizing fuel with
  | nil =>
    cases fuel with
    | zero => omega
    | succ f => simp [recordLoopGo, encodeAll, ht]
  | cons r rs ih =>
    cases fuel with
    | zero => omega
    | succ f =>
      have hr : wfRecord r := hwf r (List.mem_cons_self r rs)
      have henc : encodeAll (r :: rs) t = encodeRecord r ++ encodeAll rs t := rfl
      have hparse := parse_encodeRecord r (encodeAll rs t) hr
      have hfuel' : (encodeAll rs t).length < f := by
        rw [henc] at hfuel
        have : 1 ≤ (encodeRecord r).length := by simp [encodeRecord]
        rw [List.length_append] at hfuel
        omega
      rw [henc]
      simp only [recordLoopGo, hparse]
      rw [List.take_left, List.drop_left]
      rw [ih f (fun x hx => hwf x (List.mem_cons_of_mem r hx)) hfuel']
      simp

/-! ## The claims -/

/-- Claim C1. The claim states that one pass of `NetProfiler::update` emits
exactly one `(ip, bypass)` decision for every complete row. The code groups
the table with itertools `group_by`, which collects consecutive runs and
overwrites the previously collected run on every key change, so on a table
iterating as complete, incomplete, complete only the final complete run
receives decisions: with two complete rows (1.1.1.1 and 3.3.3.3) separated
by an incomplete one, the pass emits a single decision, for 3.3.3.3 only. -/
theorem claim_c1_groupby_drops_rows :
    NetProfiler.update profilerC1 [] ⟨200, 5⟩ 0
      = some (profilerC1, [], [(.v4 3 3 3 3, true)]) ∧
    (profilerC1.set.filter (fun e => e.2.is_complete)).length = 2 := by
  constructor
  · decide
  · decide

/-- Claim C2. `Connection::do_local` on a flow whose staging buffer is
non-empty drops the datagram and leaves the connection (staging buffer
included) unchanged; on an empty staging buffer and a not-yet-associated
tunnel it appends header plus payload to the staging buffer and writes
nothing to the TLS stream. -/
theorem claim_c2_do_local_backpressure (c : Connection) (oracle : List WriteRes)
    (header body : List Nat) :
    (c.rbuffer ≠ [] → c.do_local oracle header body = (c, [])) ∧
    (c.rbuffer = [] → c.established = false →
      c.do_local oracle header body = ({ c with rbuffer := header ++ body }, [])) := by
  constructor
  · intro h
    simp [Connection.do_local, h]
  · intro h he
    simp [Connection.do_local, h, he]

/-- Witness for claim C2 at concrete inputs: a pending staging buffer drops
the datagram; an unassociated flow stages `header ++ body`. -/
theorem claim_c2_do_local_backpressure_witness :
    Connection.do_local connPending [] [1] [2] = (connPending, []) ∧
    Connection.do_local connFresh [] [1, 2] [3] = ({ connFresh with rbuffer := [1, 2, 3] }, []) :=
  ⟨(claim_c2_do_local_backpressure connPending [] [1] [2]).1 (by decide),
   (claim_c2_do_local_backpressure connFresh [] [1, 2] [3]).2 rfl rfl⟩

/-- Claim C3. The claim states that an invalid ATYP is fatal for that
connection only, the ping channel being re-established. On the UDP side the
code indeed only closes the offending connection, but `NetProfiler::decode`
reaches `unreachable!` on any first byte other than 0x01/0x04 — a panic that
aborts the whole engine (modelled as `none`) instead of tearing down and
re-establishing the ping channel. -/
theorem claim_c3_invalid_atyp :
    NetProfiler.decode [0] [(.v4 1 1 1 1, PingResult.mkDefault 0)] = none ∧
    Connection.remote_to_local_step connEstablished (.data [0])
      = ({ connEstablished with rclosed := true, lbuffer := [0] }, []) := by
  constructor
  · rfl
  · rfl

/-- Claim C4. The claim states that the periodic sweep evicts a UDP flow
idle for more than 600 seconds. `UdpServer::check_timeout` iterates the
`sockets` map — keyed by destination endpoints — and looks those keys up in
`addr2conns` — keyed by source endpoints — so for an ordinary flow whose
source endpoint (1) differs from its destination endpoint (2) the lookup
finds nothing and the sweep removes nothing, even at 601 seconds of
idleness. -/
theorem claim_c4_eviction_never_fires :
    UdpServer.check_timeout serverIdle 601 = (serverIdle, []) ∧
    alookup serverIdle.addr2conns 1 = some connIdle ∧
    (601 : Nat) - 0 > 600 := by
  refine ⟨?_, rfl, by omega⟩
  decide

/-- Claim C5. The claim as stated quantifies over every call to
`NetProfiler::check`. On a profiler constructed with `enable = false` the
table holds no (hence no fresh) row for 1.2.3.4, yet the call emits no
request bytes, enqueues no probe and creates no row — refuting the claim's
"otherwise" branch at this input. -/
theorem claim_c5_counterexample :
    alookup (NetProfiler.new false).set (.v4 1 2 3 4) = none ∧
    NetProfiler.check (NetProfiler.new false) (.v4 1 2 3 4) 0
      = (NetProfiler.new false, [], []) := by
  constructor
  · rfl
  · rfl

/-- Claim C5, amended: on a profiler whose check channel exists (profiling
enabled), a call to `check ip` with a row younger than 3600 seconds sends
nothing and changes no state; otherwise it encodes exactly one remote
request for `ip` (appended to the ping channel, or left pending in
`send_buffer` when the channel is down), enqueues exactly one local probe
request, and sets the row's `last_time` to the current instant. -/
theorem claim_c5_check_debounce (s : NetProfiler) (ip : IpAddr) (now : Nat)
    (henabled : s.hasCheckSender = true) :
    (∀ pr, alookup s.set ip = some pr → now - pr.last_time < 3600 →
      s.check ip now = (s, [], [])) ∧
    ((∀ pr, alookup s.set ip = some pr → 3600 ≤ now - pr.last_time) →
      (s.check ip now).2.2 = [ip] ∧
      (s.check ip now).2.1 ++ (s.check ip now).1.send_buffer
        = s.send_buffer ++ encodeIp ip ∧
      ∃ pr', alookup (s.check ip now).1.set ip = some pr' ∧ pr'.last_time = now) := by
  constructor
  · intro pr hpr hfresh
    simp [NetProfiler.check, henabled, hpr, hfresh]
  · intro hstale
    have hbranch : s.check ip now = s.checkSend ip now := by
      simp only [NetProfiler.check, henabled, Bool.true_eq_false, if_false]
      cases hl : alookup s.set ip with
      | none => rfl
      | some pr =>
        have h2 : ¬ now - pr.last_time < 3600 := by
          have := hstale pr hl
          omega
        show (if now - pr.last_time < 3600 then (s, ([] : List Nat), ([] : List IpAddr))
          else s.checkSend ip now) = s.checkSend ip now
        rw [if_neg h2]
    rw [hbranch]
    unfold NetProfiler.checkSend NetProfiler.send_remote_ip
    cases hc : s.hasConn with
    | true =>
      refine ⟨rfl, by simp, ?_⟩
      exact ⟨_, alookup_updRow_self _ _ _ _, rfl⟩
    | false =>
      refine ⟨rfl, by simp, ?_⟩
      exact ⟨_, alookup_updRow_self _ _ _ _, rfl⟩

/-- Witness for the amended claim C5: on an enabled profiler with an empty
table, checking 1.2.3.4 at instant 9 enqueues one probe, encodes one
request and stamps the new row with `last_time = 9`. -/
theorem claim_c5_check_debounce_witness :
    (NetProfiler.check profilerEnabledEmpty (.v4 1 2 3 4) 9).2.2 = [.v4 1 2 3 4] ∧
    (NetProfiler.check profilerEnabledEmpty (.v4 1 2 3 4) 9).2.1 ++
      (NetProfiler.check profilerEnabledEmpty (.v4 1 2 3 4) 9).1.send_buffer
      = profilerEnabledEmpty.send_buffer ++ encodeIp (.v4 1 2 3 4) ∧
    ∃ pr', alookup (NetProfiler.check profilerEnabledEmpty (.v4 1 2 3 4) 9).1.set
        (.v4 1 2 3 4) = some pr' ∧ pr'.last_time = 9 :=
  (claim_c5_check_debounce profilerEnabledEmpty (.v4 1 2 3 4) 9 rfl).2 (fun _ h => nomatch h)

/-- Claim C6. One inbound read on a UDP flow whose accumulated buffer
(`lbuffer ++ read data`) consists of whole records followed by a partial
tail delivers exactly one datagram per record, carrying that record's
payload, addressed to the flow's source endpoint and in order; the
unconsumed tail is compacted to the front of `lbuffer`, so no bytes are
lost or duplicated across reads. -/
theorem claim_c6_streaming_parse (c : Connection) (d t : List Nat) (rs : List UdpRecord)
    (hwf : ∀ r ∈ rs, wfRecord r) (ht : parse_endpoint t = .Continued)
    (hbuf : c.lbuffer ++ d = encodeAll rs t) :
    c.remote_to_local_step (.data d)
      = ({ c with lbuffer := t }, rs.map (fun r => (c.endpoint, r.payload))) := by
  have hloop : recordLoop c.endpoint (c.lbuffer ++ d)
      = (rs.map (fun r => (c.endpoint, r.payload)), t, false) := by
    rw [hbuf]
    unfold recordLoop
    exact recordLoopGo_encodeAll c.endpoint rs t _ hwf ht (by omega)
  simp [Connection.remote_to_local_step, hloop]

/-- Witness for claim C6: a buffer holding one whole DNS-style record and a
two-byte partial tail yields exactly the record's payload addressed to the
source endpoint 9 and retains the tail. -/
theorem claim_c6_streaming_parse_witness :
    Connection.remote_to_local_step connEstablished (.data (encodeAll [recDns] [1, 8]))
      = ({ connEstablished with lbuffer := [1, 8] }, [(9, [1, 2, 3])]) :=
  claim_c6_streaming_parse connEstablished _ [1, 8] [recDns] (by decide) (by decide) rfl

/-- Claim C7. A fresh `PingResult` row has all four metrics at their
sentinel (`u8::MAX`/`u16::MAX`) and is not complete; the stores performed by
`update` (local) and `decode` (remote) clamp to sentinel − 1 and therefore
never produce the sentinel; `is_complete` holds exactly when all four
metrics differ from their sentinels, so measuring all four completes the
row. -/
theorem claim_c7_sentinel_invariant :
    (∀ now, (PingResult.mkDefault now).local_lost = 255 ∧
      (PingResult.mkDefault now).local_ping = 65535 ∧
      (PingResult.mkDefault now).remote_lost = 255 ∧
      (PingResult.mkDefault now).remote_ping = 65535 ∧
      (PingResult.mkDefault now).is_complete = false) ∧
    (∀ pr p l, (PingResult.storeLocal pr p l).local_lost ≠ 255 ∧
      (PingResult.storeLocal pr p l).local_ping ≠ 65535) ∧
    (∀ pr p l, (PingResult.storeRemote pr p l).remote_lost ≠ 255 ∧
      (PingResult.storeRemote pr p l).remote_ping ≠ 65535) ∧
    (∀ pr : PingResult, pr.is_complete = true ↔
      (pr.local_lost ≠ 255 ∧ pr.local_ping ≠ 65535 ∧
        pr.remote_lost ≠ 255 ∧ pr.remote_ping ≠ 65535)) ∧
    (∀ now p l p' l', PingResult.is_complete
      (PingResult.storeRemote (PingResult.storeLocal (PingResult.mkDefault now) p l) p' l')
        = true) := by
  refine ⟨fun now => ⟨rfl, rfl, rfl, rfl, rfl⟩, ?_, ?_, ?_, ?_⟩
  · intro pr p l
    constructor <;> simp [PingResult.storeLocal] <;> omega
  · intro pr p l
    constructor <;> simp [PingResult.storeRemote] <;> omega
  · intro pr
    simp [PingResult.is_complete, Bool.and_eq_true, bne_iff_ne, and_assoc]
  · intro now p l p' l'
    simp [PingResult.is_complete, PingResult.storeLocal, PingResult.storeRemote,
      PingResult.mkDefault, Bool.and_eq_true, bne_iff_ne]
    omega

/-- Claim C8. With a platform context installed, `on_vpn_start` succeeds and
emits exactly `on_status_changed(1)` on the calling thread, the spawned
engine thread emits exactly `on_status_changed(2)` precisely when the engine
run fails, and `on_vpn_stop` succeeds and emits exactly
`on_status_changed(3)`. -/
theorem claim_c8_lifecycle_events (s : BridgeState) (ctx : AndroidContext)
    (h : s.context = some ctx) :
    (∀ fd rf, (on_vpn_start s fd rf).error = none ∧
      (on_vpn_start s fd rf).events = [("on_status_changed", 1)] ∧
      (on_vpn_start s fd rf).threadEvents
        = (if rf then [("on_status_changed", 2)] else [])) ∧
    ((on_vpn_stop s).error = none ∧
      (on_vpn_stop s).events = [("on_status_changed", 3)]) := by
  constructor
  · intro fd rf
    simp [on_vpn_start, h]
  · simp [on_vpn_stop, h]

/-- Witness for claim C8 on a ready bridge: starting with a failing engine
run emits starting then error from the spawned thread; stopping emits
stopped. -/
theorem claim_c8_lifecycle_events_witness :
    (on_vpn_start bridgeReady 3 true).events = [("on_status_changed", 1)] ∧
    (on_vpn_start bridgeReady 3 true).threadEvents = [("on_status_changed", 2)] ∧
    (on_vpn_stop bridgeReady).events = [("on_status_changed", 3)] :=
  ⟨((claim_c8_lifecycle_events bridgeReady _ rfl).1 3 true).2.1,
   ((claim_c8_lifecycle_events bridgeReady _ rfl).1 3 true).2.2,
   (claim_c8_lifecycle_events bridgeReady _ rfl).2.2⟩

/-- Claim C9. The claim states that a failure to obtain a pool connection
for a new UDP flow is local to that flow. The code runs
`pool.get(..).unwrap()`, so when the pool hands out nothing the whole engine
panics (modelled as `none`) — here while another live flow sits in the
table. -/
theorem claim_c9_pool_unwrap_panics :
    UdpServer.handleDatagram serverIdle none [] 8 5 [1] [2] = none ∧
    alookup serverIdle.addr2conns 8 = none ∧
    serverIdle.addr2conns ≠ [] := by
  refine ⟨rfl, rfl, by decide⟩

/-- Claim C10. A profiler constructed with `enable = false` has no channel
endpoints, and both `check` and `update` then return immediately: the
table, the buffers and the whole state are unchanged and nothing is emitted
to the ping channel, the probe routine or the routing sink. -/
theorem claim_c10_disabled_noop :
    (∀ s : NetProfiler, s.hasCheckSender = false → ∀ ip now,
      s.check ip now = (s, [], [])) ∧
    (∀ s : NetProfiler, s.hasRespReceiver = false → ∀ resps cond now,
      s.update resps cond now = some (s, [], [])) ∧
    (NetProfiler.new false).hasCheckSender = false ∧
    (NetProfiler.new false).hasRespReceiver = false ∧
    (NetProfiler.new false).hasIpsetSender = false := by
  refine ⟨?_, ?_, rfl, rfl, rfl⟩
  · intro s h ip now
    simp [NetProfiler.check, h]
  · intro s h resps cond now
    simp [NetProfiler.update, h]

/-- Witness for claim C10: the disabled profiler ignores a check request and
an update pass. -/
theorem claim_c10_disabled_noop_witness :
    NetProfiler.check (NetProfiler.new false) (.v4 1 2 3 4) 7
      = (NetProfiler.new false, [], []) ∧
    NetProfiler.update (NetProfiler.new false) [] ⟨200, 5⟩ 7
      = some (NetProfiler.new false, [], []) :=
  ⟨claim_c10_disabled_noop.1 _ rfl _ _, claim_c10_disabled_noop.2.1 _ rfl _ _ _⟩

end TrojanRs
